import Mathlib

/-!
Verification development for the Ethereum-fund-flow-analysis repository.

The Go source is shallowly embedded:
* raw integer/amount strings are `String`s over `Char` lists;
* Go `float64` values are modelled as rationals together with an explicit
  IEEE-754 binary64 round-to-nearest-even function (`float64Round`), and
  `math/big.Float` intermediate precision is modelled by `roundBF`;
* Go maps are modelled as insertion-ordered association lists whose lookup
  (`lookupEnt`) is what all statements are phrased through, so the
  unspecified iteration order of a Go map is never relied upon;
* the concurrent fan-out of `FetchAllTransactions` is modelled by passing
  the five per-category results plus an arbitrary completion order (the
  order in which the goroutines enter the mutex-protected region).
-/

set_option maxRecDepth 100000
set_option exponentiation.threshold 1100

-- Batteries marks the `Rat` arithmetic operations `@[irreducible]`, which
-- blocks `decide`'s evaluation of concrete rational computations; restore
-- the default reducibility so concrete instances of the model evaluate.
set_option allowUnsafeReducibility true
attribute [semireducible] Rat.add Rat.mul Rat.sub Rat.inv Rat.ofScientific

namespace EthFlow

/-! ## String helpers -/

/-- Substring containment, phrased on the underlying character lists.
`fmt.Errorf` message claims are stated with this. -/
def strContains (hay sub : String) : Prop :=
  sub.data <:+: hay.data

instance (hay sub : String) : Decidable (strContains hay sub) := by
  unfold strContains; infer_instance

theorem strContains_of_append (p s : String) (hay sub : String)
    (h : strContains hay sub) : strContains (p ++ hay ++ s) sub := by
  rcases h with ⟨l, r, hlr⟩
  exact ⟨p.data ++ l, r ++ s.data, by
    simp only [String.data_append, List.append_assoc] at hlr ⊢
    rw [← hlr]
    simp [List.append_assoc]⟩

/-- ASCII lower-casing of one character, the fragment of Unicode simple
case folding exercised by the hex addresses this system compares. -/
def asciiLower (c : Char) : Char :=
  if 'A' ≤ c ∧ c ≤ 'Z' then Char.ofNat (c.toNat + 32) else c

/-- Model of Go `strings.EqualFold`, restricted to ASCII (Ethereum
addresses are ASCII hex strings, so the full Unicode folding never
differs from this on the data the system handles). -/
def eqFold (s t : String) : Bool :=
  s.data.map asciiLower == t.data.map asciiLower

/-! ## Decimal digit strings (Go `strconv` / `math/big` text forms) -/

def isDigitCh (c : Char) : Bool :=
  decide (48 ≤ c.toNat) && decide (c.toNat ≤ 57)

def digitVal (c : Char) : Nat := c.toNat - 48

def digitCh (d : Nat) : Char := Char.ofNat (48 + d)

/-- Parse a non-empty all-digit character list as a natural number,
most-significant digit first. -/
def parseNatDigits (l : List Char) : Option Nat :=
  if l ≠ [] ∧ l.all isDigitCh then
    some (l.foldl (fun a c => a * 10 + digitVal c) 0)
  else none

/-- Model of Go `math/big.Int.SetString(s, 10)` validity and value: an
optional single sign followed by one or more decimal digits (base 10 is
given explicitly, so no underscores or prefixes are accepted). -/
def parseBigIntGo (s : String) : Option Int :=
  match s.data with
  | [] => none
  | c :: rest =>
    if c = '+' then (parseNatDigits rest).map Int.ofNat
    else if c = '-' then (parseNatDigits rest).map (fun n => -(n : Int))
    else (parseNatDigits (c :: rest)).map Int.ofNat

/-- Little-endian base-10 digits, by structural recursion on a fuel bound
(so that concrete instances evaluate); agrees with `Nat.digits 10`. -/
def natDecDigitsAux : Nat → Nat → List Nat
  | 0, _ => []
  | f + 1, n => if n = 0 then [] else n % 10 :: natDecDigitsAux f (n / 10)

def natDecDigits (n : Nat) : List Nat := natDecDigitsAux (n + 1) n

theorem natDecDigitsAux_eq_digits (f n : Nat) (h : n ≤ f) :
    natDecDigitsAux f n = Nat.digits 10 n := by
  induction f generalizing n with
  | zero =>
    have : n = 0 := Nat.le_zero.1 h
    subst this; simp [natDecDigitsAux]
  | succ f ih =>
    by_cases h0 : n = 0
    · subst h0; simp [natDecDigitsAux]
    · have hpos : 0 < n := Nat.pos_of_ne_zero h0
      rw [natDecDigitsAux, if_neg h0, ih (n / 10) (by omega),
        Nat.digits_def' (by norm_num : 1 < 10) hpos]

theorem natDecDigits_eq (n : Nat) : natDecDigits n = Nat.digits 10 n :=
  natDecDigitsAux_eq_digits (n + 1) n (by omega)

/-- Canonical decimal digits of a natural number, most significant first
(the digits of `big.Int.String` / `strconv.FormatInt`). -/
def natDecChars (n : Nat) : List Char :=
  if n = 0 then ['0'] else ((natDecDigits n).map digitCh).reverse

theorem natDecChars_eq (n : Nat) :
    natDecChars n = if n = 0 then ['0'] else ((Nat.digits 10 n).map digitCh).reverse := by
  rw [natDecChars, natDecDigits_eq]

/-- Model of Go `big.Int.String()` / `strconv.FormatInt(v, 10)`:
canonical decimal representation with a leading `-` for negatives. -/
def goIntString (z : Int) : String :=
  if z < 0 then String.mk ('-' :: natDecChars z.natAbs)
  else String.mk (natDecChars z.natAbs)

theorem digitVal_digitCh {d : Nat} (h : d < 10) : digitVal (digitCh d) = d := by
  interval_cases d <;> decide

theorem isDigitCh_digitCh {d : Nat} (h : d < 10) : isDigitCh (digitCh d) = true := by
  interval_cases d <;> decide

theorem foldl_digits_reverse (ds : List Nat) (hds : ∀ d ∈ ds, d < 10) (a : Nat) :
    ((ds.map digitCh).reverse.foldl (fun x c => x * 10 + digitVal c) a)
      = a * 10 ^ ds.length + Nat.ofDigits 10 ds := by
  induction ds generalizing a with
  | nil => simp
  | cons d ds ih =>
    have hd : d < 10 := hds d (by simp)
    have hds' : ∀ x ∈ ds, x < 10 := fun x hx => hds x (by simp [hx])
    simp only [List.map_cons, List.reverse_cons, List.foldl_append, List.foldl_cons,
      List.foldl_nil, ih hds', Nat.ofDigits_cons, List.length_cons]
    rw [digitVal_digitCh hd]
    ring

theorem parseNatDigits_natDecChars (n : Nat) :
    parseNatDigits (natDecChars n) = some n := by
  by_cases h0 : n = 0
  · subst h0; decide
  · have hne : Nat.digits 10 n ≠ [] := Nat.digits_ne_nil_iff_ne_zero.2 h0
    have hlt : ∀ d ∈ Nat.digits 10 n, d < 10 := fun d hd =>
      Nat.digits_lt_base (by norm_num) hd
    have hall : ((Nat.digits 10 n).map digitCh).reverse.all isDigitCh = true := by
      rw [List.all_eq_true]
      intro c hc
      rw [List.mem_reverse, List.mem_map] at hc
      rcases hc with ⟨d, hd, rfl⟩
      exact isDigitCh_digitCh (hlt d hd)
    have hne' : ((Nat.digits 10 n).map digitCh).reverse ≠ [] := by
      simp [hne]
    rw [natDecChars_eq, if_neg h0, parseNatDigits, if_pos ⟨hne', hall⟩,
      foldl_digits_reverse _ hlt 0]
    simp [Nat.ofDigits_digits]

theorem natDecChars_head_digit (n : Nat) :
    ∃ c l, natDecChars n = c :: l ∧ isDigitCh c = true := by
  by_cases h0 : n = 0
  · subst h0; exact ⟨'0', [], rfl, by decide⟩
  · have hne : Nat.digits 10 n ≠ [] := Nat.digits_ne_nil_iff_ne_zero.2 h0
    have hlt : ∀ d ∈ Nat.digits 10 n, d < 10 := fun d hd =>
      Nat.digits_lt_base (by norm_num) hd
    rcases hrev : ((Nat.digits 10 n).map digitCh).reverse with _ | ⟨c, l⟩
    · exfalso
      have := congrArg List.length hrev
      simp [hne] at this
    · refine ⟨c, l, by simp [natDecChars_eq, if_neg h0, hrev], ?_⟩
      have hc : c ∈ ((Nat.digits 10 n).map digitCh).reverse := by simp [hrev]
      rw [List.mem_reverse, List.mem_map] at hc
      rcases hc with ⟨d, hd, rfl⟩
      exact isDigitCh_digitCh (hlt d hd)

theorem parseBigIntGo_goIntString (z : Int) :
    parseBigIntGo (goIntString z) = some z := by
  rcases natDecChars_head_digit z.natAbs with ⟨c, l, hcl, hdig⟩
  have hcplus : ¬ c = '+' := by
    intro h; subst h; simp [isDigitCh] at hdig
  have hcminus : ¬ c = '-' := by
    intro h; subst h; simp [isDigitCh] at hdig
  by_cases hz : z < 0
  · rw [goIntString, if_pos hz]
    show parseBigIntGo ⟨'-' :: natDecChars z.natAbs⟩ = some z
    simp only [parseBigIntGo, parseNatDigits_natDecChars, reduceCtorEq, reduceIte,
      Option.map_some, Option.some.injEq, Char.reduceEq]
    have hval : -((z.natAbs : Int)) = z := by omega
    show some (-((z.natAbs : Int))) = some z
    rw [hval]
  · rw [goIntString, if_neg hz]
    show parseBigIntGo ⟨natDecChars z.natAbs⟩ = some z
    rw [show (⟨natDecChars z.natAbs⟩ : String) = ⟨c :: l⟩ from by rw [hcl]]
    simp only [parseBigIntGo, if_neg hcplus, if_neg hcminus, ← hcl,
      parseNatDigits_natDecChars]
    have hval : ((z.natAbs : Int)) = z := by omega
    show some ((z.natAbs : Int)) = some z
    rw [hval]

/-! ## Binary floating-point rounding model

`math/big.Float` computes with a chosen significand precision and rounds
to nearest, ties to even; `Float64()` then rounds to IEEE-754 binary64.
Both are modelled as exact functions on rationals. -/

/-- The rational `2 ^ e` for an integer `e`, computed through `Nat`
exponentiation (which evaluates fast) rather than `zpow` (whose linear
recursion overflows the elaborator stack at binary64 exponent sizes). -/
def qpow2 (e : Int) : Rat :=
  if 0 ≤ e then ((2 ^ e.toNat : Nat) : Rat) else mkRat 1 (2 ^ (-e).toNat)

/-- Round `q` to an integer multiple of `2^e`, ties to even. -/
def r2exp (e : Int) (q : Rat) : Rat :=
  let s : Rat := q * qpow2 (-e)
  let n : Int := ⌊s⌋
  let f : Rat := s - n
  let m : Int :=
    if f < 1/2 then n
    else if 1/2 < f then n + 1
    else if n % 2 = 0 then n else n + 1
  (m : Rat) * qpow2 e

/-- Binary length by structural recursion on a fuel bound (the fuel
`n + 1` always suffices, so this is the usual bit length). -/
def bitLenAux : Nat → Nat → Nat
  | 0, _ => 0
  | f + 1, n => if n = 0 then 0 else bitLenAux f (n / 2) + 1

def natBitLen (n : Nat) : Nat := bitLenAux (n + 1) n

/-- `⌊log₂ q⌋` for positive `q`, computed from the bit lengths of the
numerator and denominator. -/
def ratLog2Floor (q : Rat) : Int :=
  let g : Int := (natBitLen q.num.natAbs : Int) - (natBitLen q.den : Int)
  if qpow2 (g + 1) ≤ q then g + 1
  else if qpow2 g ≤ q then g
  else g - 1

/-- Round to a binary significand of `p` bits, nearest-even, unbounded
exponent: the value a `big.Float` of precision `p` stores. -/
def roundBF (p : Nat) (q : Rat) : Rat :=
  if q = 0 then 0 else r2exp (ratLog2Floor |q| - (p - 1)) q

/-- Round a rational to the nearest IEEE-754 binary64 value (nearest,
ties to even), including the subnormal range; a result of magnitude
`2^1024` stands for the infinity `big.Float.Float64` / float64 overflow
produces (no finite float64 equals it). -/
def float64Round (q : Rat) : Rat :=
  if q = 0 then 0
  else
    let e : Int := max (ratLog2Floor |q| - 52) (-1074)
    let r := r2exp e q
    if qpow2 1024 ≤ |r| then
      (if q < 0 then -(qpow2 1024) else qpow2 1024)
    else r

/-- Go `float64` addition (`+=` in the aggregation loops): exact sum,
then one binary64 rounding. -/
def fadd (a b : Rat) : Rat := float64Round (a + b)

/-- `big.Int.BitLen`. -/
def goBitLen (z : Int) : Nat := natBitLen z.natAbs

/-- Model of Go `math.Pow10(n)` for `n ≥ 0`: the table entries
`pow10tab[n%32]` and `pow10postab32[n/32]` are the correctly rounded
float64 values of `10^(n%32)` and `10^(32*(n/32))`, and their product is
rounded once; above 308 the function returns `+Inf`. -/
def goPow10 (n : Nat) : Rat :=
  if n ≤ 308 then
    float64Round (float64Round (((10 ^ (n % 32) : Nat) : Rat)) *
      float64Round (((10 ^ (32 * (n / 32)) : Nat) : Rat)))
  else qpow2 1024

/-! ## `internal/utils/conversions.go` -/

/-- `ConvertWeiToEther`: `big.Int.SetString(s, 10)` (the ignored failure
leaves the receiver at its zero value when no digit scans, which is the
only failure mode exercised here), an exact `big.Float` of precision
`max(64, BitLen)` for the numerator, the exact 53-bit constant `1e18`
as divisor, a `Quo` rounded to the receiver precision
`max(64, BitLen)`, and a final `Float64()` rounding. -/
def convertWeiToEther (s : String) : Rat :=
  match parseBigIntGo s with
  | none => 0
  | some z => float64Round (roundBF (max 64 (goBitLen z)) ((z : Rat) / 10 ^ 18))

/-- `ConvertTokenValueWithDecimals`: the divisor is the float64
`math.Pow10(tokenDecimal)`; `big.Float.SetString` parses the (integer)
value string and rounds it to the default precision 64; `Quo` rounds to
precision `max(64, 53) = 64`; `Float64()` rounds to binary64.  A string
that fails to scan leaves the receiver at 0 (failure is ignored in the
source). -/
def convertTokenValueWithDecimals (s : String) (tokenDecimal : Nat) : Rat :=
  match parseBigIntGo s with
  | none => 0
  | some z =>
    float64Round (roundBF 64 (roundBF 64 (z : Rat) / goPow10 tokenDecimal))

/-! ## Data model (`internal/models`)

Only the fields the analyzed code paths read are modelled.  Raw amounts
are carried as their decimal strings (`BigInt.String()` output in Go);
`TimeStamp` is the Unix-seconds value (`Time.Time().Unix()`); the
local-time string rendering `FormatTimestamp` applies to it is
environment-dependent (time zone) and irrelevant to every claim, so the
`DateTime` field carries the timestamp itself. -/

structure NormalTx where
  From : String
  To : String
  Value : String
  TimeStamp : Int
  Hash : String
  IsError : Int
deriving DecidableEq, Repr

structure InternalTx where
  From : String
  To : String
  Value : String
  TimeStamp : Int
  Hash : String
  IsError : Int
deriving DecidableEq, Repr

structure ERC20Transfer where
  From : String
  To : String
  Value : String
  TimeStamp : Int
  Hash : String
  TokenDecimal : Nat
deriving DecidableEq, Repr

structure ERC721Transfer where
  From : String
  To : String
  TimeStamp : Int
  Hash : String
  TokenDecimal : Nat
deriving DecidableEq, Repr

structure ERC1155Transfer where
  From : String
  To : String
  TokenValue : String
  TimeStamp : Int
  Hash : String
  TokenDecimal : Nat
deriving DecidableEq, Repr

/-- `models.Transaction`. -/
structure Transaction where
  TxAmount : Rat
  DateTime : Int
  TransactionID : String
deriving DecidableEq, Repr

/-- `models.EntityWithTransactions` (also the shape of `models.Beneficiary`
and `models.Payer`). -/
structure EntityWithTransactions where
  Address : String
  Amount : Rat
  Transactions : List Transaction
deriving DecidableEq, Repr

/-- `service.TransactionCollection`. -/
structure TransactionCollection where
  NormalTxs : List NormalTx
  InternalTxs : List InternalTx
  ERC20Txs : List ERC20Transfer
  ERC721Txs : List ERC721Transfer
  ERC1155Txs : List ERC1155Transfer
  Errors : List String
deriving DecidableEq, Repr

/-! ## Aggregation (`ProcessTransactions`, `internal/services`) -/

def mkNormalTransaction (t : NormalTx) : Transaction :=
  { TxAmount := convertWeiToEther t.Value, DateTime := t.TimeStamp, TransactionID := t.Hash }

def mkInternalTransaction (t : InternalTx) : Transaction :=
  { TxAmount := convertWeiToEther t.Value, DateTime := t.TimeStamp, TransactionID := t.Hash }

def mkERC20Transaction (t : ERC20Transfer) : Transaction :=
  { TxAmount := convertTokenValueWithDecimals t.Value t.TokenDecimal,
    DateTime := t.TimeStamp, TransactionID := t.Hash }

/-- NFTs always transfer one. -/
def mkERC721Transaction (t : ERC721Transfer) : Transaction :=
  { TxAmount := 1, DateTime := t.TimeStamp, TransactionID := t.Hash }

def mkERC1155Transaction (t : ERC1155Transfer) : Transaction :=
  { TxAmount := convertTokenValueWithDecimals t.TokenValue t.TokenDecimal,
    DateTime := t.TimeStamp, TransactionID := t.Hash }

/-- The `continue` conditions of the normal-transaction loop, combined:
skip failed transactions (`IsError == 1`) and records whose
direction-relevant endpoint is not the queried address. -/
def keepNormal (address : String) (isOutgoing : Bool) (t : NormalTx) : Bool :=
  (!(decide (t.IsError = 1))) &&
    (if isOutgoing then eqFold t.From address else eqFold t.To address)

def keepInternal (address : String) (isOutgoing : Bool) (t : InternalTx) : Bool :=
  (!(decide (t.IsError = 1))) &&
    (if isOutgoing then eqFold t.From address else eqFold t.To address)

def keepERC20 (address : String) (isOutgoing : Bool) (t : ERC20Transfer) : Bool :=
  if isOutgoing then eqFold t.From address else eqFold t.To address

def keepERC721 (address : String) (isOutgoing : Bool) (t : ERC721Transfer) : Bool :=
  if isOutgoing then eqFold t.From address else eqFold t.To address

def keepERC1155 (address : String) (isOutgoing : Bool) (t : ERC1155Transfer) : Bool :=
  if isOutgoing then eqFold t.From address else eqFold t.To address

def cpNormal (isOutgoing : Bool) (t : NormalTx) : String :=
  if isOutgoing then t.To else t.From

def cpInternal (isOutgoing : Bool) (t : InternalTx) : String :=
  if isOutgoing then t.To else t.From

def cpERC20 (isOutgoing : Bool) (t : ERC20Transfer) : String :=
  if isOutgoing then t.To else t.From

def cpERC721 (isOutgoing : Bool) (t : ERC721Transfer) : String :=
  if isOutgoing then t.To else t.From

def cpERC1155 (isOutgoing : Bool) (t : ERC1155Transfer) : String :=
  if isOutgoing then t.To else t.From

/-- Go-map lookup (`entityMap[k]`), on the insertion-ordered association
list that models the map. -/
def lookupEnt (k : String) : List (String × EntityWithTransactions) →
    Option EntityWithTransactions
  | [] => none
  | (k1, e) :: rest => if k1 = k then some e else lookupEnt k rest

/-- The map-update pattern of every aggregation loop: create the bucket
with `Amount 0` and no transactions on first reference, then apply the
mutation `g` to it. -/
def upsertEnt (k : String) (g : EntityWithTransactions → EntityWithTransactions) :
    List (String × EntityWithTransactions) → List (String × EntityWithTransactions)
  | [] => [(k, g { Address := k, Amount := 0, Transactions := [] })]
  | (k1, e) :: rest =>
    if k1 = k then (k1, g e) :: rest else (k1, e) :: upsertEnt k g rest

/-- One record's mutation of its bucket: the normalized amount is added
to the running total only when `addAmt` is set (native and internal
categories); the transaction is always appended. -/
def stepEnt {t1 : Type} (mk : t1 → Transaction) (addAmt : Bool)
    (e : EntityWithTransactions) (t : t1) : EntityWithTransactions :=
  { Address := e.Address
    Amount := if addAmt then fadd e.Amount (mk t).TxAmount else e.Amount
    Transactions := e.Transactions ++ [mk t] }

/-- One category's `for` loop over its record slice. -/
def processCat {t1 : Type} (keep : t1 → Bool) (cp : t1 → String)
    (mk : t1 → Transaction) (addAmt : Bool) (txs : List t1)
    (m : List (String × EntityWithTransactions)) :
    List (String × EntityWithTransactions) :=
  txs.foldl
    (fun acc t => if keep t then upsertEnt (cp t) (fun e => stepEnt mk addAmt e t) acc
      else acc) m

/-- `ProcessTransactions(address, txCollection, isOutgoing)`: the five
category loops in source order (normal, internal, ERC20, ERC721,
ERC1155) over one shared entity map.  `AnalyzeBeneficiaries` and
`AnalyzePayers` inline the same loops with `isOutgoing` fixed to true
resp. false. -/
def processTransactions (address : String) (txCollection : TransactionCollection)
    (isOutgoing : Bool) : List (String × EntityWithTransactions) :=
  let m1 := processCat (keepNormal address isOutgoing) (cpNormal isOutgoing)
    mkNormalTransaction true txCollection.NormalTxs []
  let m2 := processCat (keepInternal address isOutgoing) (cpInternal isOutgoing)
    mkInternalTransaction true txCollection.InternalTxs m1
  let m3 := processCat (keepERC20 address isOutgoing) (cpERC20 isOutgoing)
    mkERC20Transaction false txCollection.ERC20Txs m2
  let m4 := processCat (keepERC721 address isOutgoing) (cpERC721 isOutgoing)
    mkERC721Transaction false txCollection.ERC721Txs m3
  processCat (keepERC1155 address isOutgoing) (cpERC1155 isOutgoing)
    mkERC1155Transaction false txCollection.ERC1155Txs m4

/-! ## Characterization of the aggregation map -/

/-- The records of one category that contribute to bucket `k`. -/
def contrib {t1 : Type} (keep : t1 → Bool) (cp : t1 → String) (txs : List t1)
    (k : String) : List t1 :=
  txs.filter (fun t => keep t && (cp t == k))

/-- The empty bucket a first reference creates. -/
def newEnt (k : String) : EntityWithTransactions :=
  { Address := k, Amount := 0, Transactions := [] }

/-- The effect of one category's loop on the bucket of `k`, as a function
of the bucket's previous state and the contributing records. -/
def applyContrib {t1 : Type} (mk : t1 → Transaction) (addAmt : Bool) (k : String)
    (cur : Option EntityWithTransactions) (l : List t1) :
    Option EntityWithTransactions :=
  match cur, l with
  | none, [] => none
  | none, l => some (l.foldl (stepEnt mk addAmt) (newEnt k))
  | some e, l => some (l.foldl (stepEnt mk addAmt) e)

theorem applyContrib_nil {t1 : Type} (mk : t1 → Transaction) (addAmt : Bool)
    (k : String) (cur : Option EntityWithTransactions) :
    applyContrib mk addAmt k cur [] = cur := by
  cases cur <;> rfl

theorem applyContrib_cons {t1 : Type} (mk : t1 → Transaction) (addAmt : Bool)
    (k : String) (cur : Option EntityWithTransactions) (t : t1) (l : List t1) :
    applyContrib mk addAmt k cur (t :: l)
      = applyContrib mk addAmt k (some (stepEnt mk addAmt (cur.getD (newEnt k)) t)) l := by
  cases cur <;> cases l <;> rfl

theorem getD_applyContrib {t1 : Type} (mk : t1 → Transaction) (addAmt : Bool)
    (k : String) (cur : Option EntityWithTransactions) (l : List t1) :
    (applyContrib mk addAmt k cur l).getD (newEnt k)
      = l.foldl (stepEnt mk addAmt) (cur.getD (newEnt k)) := by
  cases cur <;> cases l <;> rfl

theorem applyContrib_eq_none {t1 : Type} (mk : t1 → Transaction) (addAmt : Bool)
    (k : String) (cur : Option EntityWithTransactions) (l : List t1) :
    applyContrib mk addAmt k cur l = none ↔ cur = none ∧ l = [] := by
  cases cur <;> cases l <;> simp [applyContrib]

theorem lookupEnt_upsertEnt_self (k : String)
    (g : EntityWithTransactions → EntityWithTransactions)
    (m : List (String × EntityWithTransactions)) :
    lookupEnt k (upsertEnt k g m) = some (g ((lookupEnt k m).getD (newEnt k))) := by
  induction m with
  | nil => simp [upsertEnt, lookupEnt, newEnt]
  | cons p rest ih =>
    obtain ⟨k1, e⟩ := p
    by_cases h : k1 = k
    · subst h
      simp [upsertEnt, lookupEnt]
    · simp [upsertEnt, lookupEnt, h, ih]

theorem lookupEnt_upsertEnt_ne (k k1 : String)
    (g : EntityWithTransactions → EntityWithTransactions)
    (m : List (String × EntityWithTransactions)) (h : k1 ≠ k) :
    lookupEnt k (upsertEnt k1 g m) = lookupEnt k m := by
  induction m with
  | nil => simp [upsertEnt, lookupEnt, h]
  | cons p rest ih =>
    obtain ⟨k2, e⟩ := p
    by_cases h2 : k2 = k1
    · subst h2
      simp [upsertEnt, lookupEnt, h]
    · by_cases h3 : k2 = k
      · subst h3
        simp [upsertEnt, lookupEnt, h2]
      · simp [upsertEnt, lookupEnt, h2, h3, ih]

theorem lookupEnt_processCat {t1 : Type} (keep : t1 → Bool) (cp : t1 → String)
    (mk : t1 → Transaction) (addAmt : Bool) (txs : List t1)
    (m : List (String × EntityWithTransactions)) (k : String) :
    lookupEnt k (processCat keep cp mk addAmt txs m)
      = applyContrib mk addAmt k (lookupEnt k m) (contrib keep cp txs k) := by
  induction txs generalizing m with
  | nil => simp [processCat, contrib, applyContrib_nil]
  | cons t ts ih =>
    by_cases hk : keep t
    · by_cases hc : cp t = k
      · have hstep : processCat keep cp mk addAmt (t :: ts) m
            = processCat keep cp mk addAmt ts
              (upsertEnt (cp t) (fun e => stepEnt mk addAmt e t) m) := by
          simp [processCat, hk]
        rw [hstep, ih]
        have hfil : contrib keep cp (t :: ts) k = t :: contrib keep cp ts k := by
          simp [contrib, List.filter_cons, hk, hc]
        rw [hfil, applyContrib_cons, hc, lookupEnt_upsertEnt_self]
      · have hstep : processCat keep cp mk addAmt (t :: ts) m
            = processCat keep cp mk addAmt ts
              (upsertEnt (cp t) (fun e => stepEnt mk addAmt e t) m) := by
          simp [processCat, hk]
        rw [hstep, ih]
        have hfil : contrib keep cp (t :: ts) k = contrib keep cp ts k := by
          simp [contrib, List.filter_cons, hk, hc]
        rw [hfil, lookupEnt_upsertEnt_ne _ _ _ _ hc]
    · have hstep : processCat keep cp mk addAmt (t :: ts) m
          = processCat keep cp mk addAmt ts m := by
        simp [processCat, hk]
      have hfil : contrib keep cp (t :: ts) k = contrib keep cp ts k := by
        simp [contrib, List.filter_cons, hk]
      rw [hstep, ih, hfil]

theorem foldl_stepEnt_address {t1 : Type} (mk : t1 → Transaction) (addAmt : Bool)
    (l : List t1) (e : EntityWithTransactions) :
    (l.foldl (stepEnt mk addAmt) e).Address = e.Address := by
  induction l generalizing e with
  | nil => rfl
  | cons t ts ih => simp [List.foldl_cons, ih, stepEnt]

theorem foldl_stepEnt_txns {t1 : Type} (mk : t1 → Transaction) (addAmt : Bool)
    (l : List t1) (e : EntityWithTransactions) :
    (l.foldl (stepEnt mk addAmt) e).Transactions = e.Transactions ++ l.map mk := by
  induction l generalizing e with
  | nil => simp
  | cons t ts ih => simp [List.foldl_cons, ih, stepEnt]

theorem foldl_stepEnt_amount_false {t1 : Type} (mk : t1 → Transaction)
    (l : List t1) (e : EntityWithTransactions) :
    (l.foldl (stepEnt mk false) e).Amount = e.Amount := by
  induction l generalizing e with
  | nil => rfl
  | cons t ts ih => simp [List.foldl_cons, ih, stepEnt]

theorem foldl_stepEnt_amount_true {t1 : Type} (mk : t1 → Transaction)
    (l : List t1) (e : EntityWithTransactions) :
    (l.foldl (stepEnt mk true) e).Amount
      = (l.map (fun t => (mk t).TxAmount)).foldl fadd e.Amount := by
  induction l generalizing e with
  | nil => rfl
  | cons t ts ih => simp [List.foldl_cons, ih, stepEnt]

/-- The normal records contributing to bucket `k`. -/
def contribNormal (a : String) (dir : Bool) (c : TransactionCollection) (k : String) :
    List NormalTx :=
  contrib (keepNormal a dir) (cpNormal dir) c.NormalTxs k

def contribInternal (a : String) (dir : Bool) (c : TransactionCollection) (k : String) :
    List InternalTx :=
  contrib (keepInternal a dir) (cpInternal dir) c.InternalTxs k

def contribERC20 (a : String) (dir : Bool) (c : TransactionCollection) (k : String) :
    List ERC20Transfer :=
  contrib (keepERC20 a dir) (cpERC20 dir) c.ERC20Txs k

def contribERC721 (a : String) (dir : Bool) (c : TransactionCollection) (k : String) :
    List ERC721Transfer :=
  contrib (keepERC721 a dir) (cpERC721 dir) c.ERC721Txs k

def contribERC1155 (a : String) (dir : Bool) (c : TransactionCollection) (k : String) :
    List ERC1155Transfer :=
  contrib (keepERC1155 a dir) (cpERC1155 dir) c.ERC1155Txs k

theorem lookupEnt_processTransactions (a : String) (c : TransactionCollection)
    (dir : Bool) (k : String) :
    lookupEnt k (processTransactions a c dir)
      = applyContrib mkERC1155Transaction false k
          (applyContrib mkERC721Transaction false k
            (applyContrib mkERC20Transaction false k
              (applyContrib mkInternalTransaction true k
                (applyContrib mkNormalTransaction true k none
                  (contribNormal a dir c k))
                (contribInternal a dir c k))
              (contribERC20 a dir c k))
            (contribERC721 a dir c k))
          (contribERC1155 a dir c k) := by
  simp only [processTransactions, lookupEnt_processCat, contribNormal, contribInternal,
    contribERC20, contribERC721, contribERC1155]
  rfl

/-- The bucket of `k` is absent exactly when no record of any category
contributes to `k`. -/
theorem lookupEnt_processTransactions_eq_none (a : String) (c : TransactionCollection)
    (dir : Bool) (k : String) :
    lookupEnt k (processTransactions a c dir) = none
      ↔ contribNormal a dir c k = [] ∧ contribInternal a dir c k = []
        ∧ contribERC20 a dir c k = [] ∧ contribERC721 a dir c k = []
        ∧ contribERC1155 a dir c k = [] := by
  rw [lookupEnt_processTransactions]
  simp only [applyContrib_eq_none]
  tauto

/-- Full description of a present bucket: its address is the exact map
key, its history is the contributing records of the five categories in
processing order, and its running total is the float64 left fold of the
normalized native and internal amounts only. -/
theorem lookupEnt_processTransactions_eq_some (a : String) (c : TransactionCollection)
    (dir : Bool) (k : String) (e : EntityWithTransactions)
    (h : lookupEnt k (processTransactions a c dir) = some e) :
    e.Address = k
    ∧ e.Transactions
        = (contribNormal a dir c k).map mkNormalTransaction
          ++ (contribInternal a dir c k).map mkInternalTransaction
          ++ (contribERC20 a dir c k).map mkERC20Transaction
          ++ (contribERC721 a dir c k).map mkERC721Transaction
          ++ (contribERC1155 a dir c k).map mkERC1155Transaction
    ∧ e.Amount
        = ((contribNormal a dir c k).map (fun t => (mkNormalTransaction t).TxAmount)
            ++ (contribInternal a dir c k).map (fun t => (mkInternalTransaction t).TxAmount)).foldl
            fadd 0 := by
  have he : e = (lookupEnt k (processTransactions a c dir)).getD (newEnt k) := by
    rw [h]; rfl
  rw [lookupEnt_processTransactions, getD_applyContrib, getD_applyContrib,
    getD_applyContrib, getD_applyContrib, getD_applyContrib] at he
  have hget : (none : Option EntityWithTransactions).getD (newEnt k) = newEnt k := rfl
  rw [hget] at he
  subst he
  refine ⟨?_, ?_, ?_⟩
  · rw [foldl_stepEnt_address, foldl_stepEnt_address, foldl_stepEnt_address,
      foldl_stepEnt_address, foldl_stepEnt_address]
    rfl
  · rw [foldl_stepEnt_txns, foldl_stepEnt_txns, foldl_stepEnt_txns,
      foldl_stepEnt_txns, foldl_stepEnt_txns]
    show ([] : List Transaction) ++ _ ++ _ ++ _ ++ _ ++ _ = _
    simp [List.append_assoc]
  · rw [foldl_stepEnt_amount_false, foldl_stepEnt_amount_false,
      foldl_stepEnt_amount_false, foldl_stepEnt_amount_true,
      foldl_stepEnt_amount_true, List.foldl_append]
    rfl

/-! ## Concurrent fetch (`FetchAllTransactions`, `internal/services`)

Each goroutine's fetch result is a value of `Except String (List _)`;
the order in which the five goroutines enter the mutex-protected region
(and hence append to `result.Errors`) is an arbitrary permutation of the
five categories, passed in explicitly. -/

inductive Category where
  | normal
  | internal
  | erc20
  | erc721
  | erc1155
deriving DecidableEq, Repr

/-- The name each fetch task wraps its error with
(`fmt.Errorf("%s: %w", ...)`). -/
def categoryName : Category → String
  | .normal => "normal transactions"
  | .internal => "internal transactions"
  | .erc20 => "ERC20 transfers"
  | .erc721 => "ERC721 transfers"
  | .erc1155 => "ERC1155 transfers"

def allCategories : List Category :=
  [.normal, .internal, .erc20, .erc721, .erc1155]

/-- The five per-category fetch results of one request. -/
structure FetchOutcome where
  normal : Except String (List NormalTx)
  internal : Except String (List InternalTx)
  erc20 : Except String (List ERC20Transfer)
  erc721 : Except String (List ERC721Transfer)
  erc1155 : Except String (List ERC1155Transfer)

def errOfCat (r : FetchOutcome) : Category → Option String
  | .normal => match r.normal with | .error e => some e | .ok _ => none
  | .internal => match r.internal with | .error e => some e | .ok _ => none
  | .erc20 => match r.erc20 with | .error e => some e | .ok _ => none
  | .erc721 => match r.erc721 with | .error e => some e | .ok _ => none
  | .erc1155 => match r.erc1155 with | .error e => some e | .ok _ => none

/-- A slice that was never assigned stays at its zero value (nil slice,
modelled as `[]`). -/
def okD {t1 : Type} : Except String (List t1) → List t1
  | .ok l => l
  | .error _ => []

/-- `fmt.Errorf("%s: %w", task-name, err)`. -/
def wrapCat (c : Category) (cause : String) : String :=
  categoryName c ++ ": " ++ cause

/-- The `result.Errors` slice: the wrapped error of every failed
category, in goroutine completion order. -/
def errorsList (r : FetchOutcome) (order : List Category) : List String :=
  order.filterMap (fun c => (errOfCat r c).map (wrapCat c))

/-- How `fmt`'s `%v` verb renders a `[]error`: the elements, space
separated, in square brackets. -/
def joinSpace : List String → String
  | [] => ""
  | [x] => x
  | x :: xs => x ++ " " ++ joinSpace xs

/-- `FetchAllTransactions`, as a function of the five results and the
completion order: the collection holds every successful category's
slice, and when at least one category failed the aggregate error
`fmt.Errorf("failed to fetch some transactions: %v", result.Errors)`
is returned alongside the partially filled collection. -/
def fetchAllTransactions (r : FetchOutcome) (order : List Category) :
    TransactionCollection × Option String :=
  let coll : TransactionCollection :=
    { NormalTxs := okD r.normal
      InternalTxs := okD r.internal
      ERC20Txs := okD r.erc20
      ERC721Txs := okD r.erc721
      ERC1155Txs := okD r.erc1155
      Errors := errorsList r order }
  if coll.Errors = [] then (coll, none)
  else (coll, some ("failed to fetch some transactions: [" ++ joinSpace coll.Errors ++ "]"))

theorem strContains_joinSpace (l : List String) (x : String) (hx : x ∈ l) :
    strContains (joinSpace l) x := by
  induction l with
  | nil => cases hx
  | cons y ys ih =>
    cases ys with
    | nil =>
      have : x = y := by
        rcases List.mem_cons.1 hx with h | h
        · exact h
        · cases h
      subst this
      exact ⟨[], [], by simp [joinSpace]⟩
    | cons z zs =>
      rcases List.mem_cons.1 hx with h | h
      · subst h
        refine ⟨[], (" " ++ joinSpace (z :: zs)).data, ?_⟩
        show ([] : List Char) ++ x.data ++ (" " ++ joinSpace (z :: zs)).data
          = (joinSpace (x :: z :: zs)).data
        simp [joinSpace, String.data_append]
      · rcases ih h with ⟨u, v, huv⟩
        refine ⟨(y ++ " ").data ++ u, v, ?_⟩
        show _ = (joinSpace (y :: z :: zs)).data
        simp only [joinSpace, String.data_append, List.append_assoc] at huv ⊢
        rw [huv]

/-- Containment is transitive through an intermediate string. -/
theorem strContains_trans (hay mid sub : String)
    (h1 : strContains hay mid) (h2 : strContains mid sub) :
    strContains hay sub := by
  rcases h1 with ⟨a, b, hab⟩
  rcases h2 with ⟨u, v, huv⟩
  exact ⟨a ++ u, v ++ b, by rw [← hab, ← huv]; simp [List.append_assoc]⟩

theorem wrapCat_starts_with_name (c : Category) (cause : String) :
    strContains (wrapCat c cause) (categoryName c) :=
  ⟨[], (": " ++ cause).data, by simp [wrapCat, String.data_append]⟩

theorem wrapCat_ends_with_cause (c : Category) (cause : String) :
    strContains (wrapCat c cause) cause :=
  ⟨(categoryName c ++ ": ").data, [], by simp [wrapCat, String.data_append]⟩

/-! ## Post-fetch filter / sort / limit (`internal/api/handlers.go`) -/

/-- `api.FilterAndSortParams`. -/
structure FilterAndSortParams where
  Address : String
  StartBlock : Int
  EndBlock : Int
  Page : Int
  Offset : Int
  «Sort» : String
  MinAmount : Rat
  MaxAmount : Rat
  SortBy : String
  Limit : Int
  WithZeroTxs : Bool
deriving DecidableEq, Repr

/-- The three `continue` conditions of the filter loop in
`filterBeneficiaries` / `filterPayers`: zero amounts are skipped when
`WithZeroTxs` is false; amounts below `MinAmount` are skipped; amounts
above `MaxAmount` are skipped only when `MaxAmount > 0`. -/
def keepBen (p : FilterAndSortParams) (ben : EntityWithTransactions) : Bool :=
  if ben.Amount = 0 ∧ ¬ p.WithZeroTxs then false
  else if ben.Amount < p.MinAmount then false
  else if 0 < p.MaxAmount ∧ p.MaxAmount < ben.Amount then false
  else true

def filterLoop (p : FilterAndSortParams) (l : List EntityWithTransactions) :
    List EntityWithTransactions :=
  l.filter (keepBen p)

/-- The contract of Go `sort.Slice data less`: afterwards `data` is some
permutation of its previous contents that is sorted with respect to
`less` (`sort.Slice` is documented as **not** guaranteed to be stable,
so nothing more than this is promised; the concrete permutation is an
implementation detail of the Go release's pdqsort). -/
def sortSliceSpec {t1 : Type} (lt : t1 → t1 → Prop) (inp out : List t1) : Prop :=
  inp.Perm out ∧ out.Pairwise (fun x y => ¬ lt y x)

/-- `applySorting` / the sort step of `filterBeneficiaries`:
ascending by `Amount` for `"asc"`, descending otherwise. -/
def applySortingRel (sortOrder : String) (inp out : List EntityWithTransactions) : Prop :=
  if sortOrder = "asc" then sortSliceSpec (fun x y => x.Amount < y.Amount) inp out
  else sortSliceSpec (fun x y => y.Amount < x.Amount) inp out

instance (o : String) (inp out : List EntityWithTransactions) :
    Decidable (applySortingRel o inp out) := by
  unfold applySortingRel sortSliceSpec
  infer_instance

/-- `if len(filtered) > limit { filtered = filtered[:limit] }`.  (For a
negative limit together with a longer list Go would panic on the slice
expression; the query parser guarantees `limit ≥ 1`, and every claim
instance uses a positive limit.) -/
def goTruncate {t1 : Type} (limit : Int) (l : List t1) : List t1 :=
  if (l.length : Int) > limit then l.take limit.toNat else l

/-- `filterBeneficiaries(beneficiaries, params)` (and the identical
`filterPayers`): filter loop, then `sort.Slice` when sorting by amount,
then truncation to `Limit`.  Relational because of `sortSliceSpec`. -/
def filterBeneficiariesRel (p : FilterAndSortParams)
    (inp out : List EntityWithTransactions) : Prop :=
  ∃ mid,
    (if p.SortBy = "amount" then applySortingRel p.«Sort» (filterLoop p inp) mid
     else mid = filterLoop p inp)
    ∧ out = goTruncate p.Limit mid

/-! ## Etherscan client endpoints (`internal/etherscan` / `internal/client`) -/

/-- `client.EtherscanRequestParams`. -/
structure EtherscanRequestParams where
  Address : String
  ContractAddress : String
  Page : Int
  Offset : Int
  StartBlock : Int
  EndBlock : Int
  «Sort» : String
deriving DecidableEq, Repr

/-- `buildEndpoint(action, params)` of the params-based client. -/
def buildEndpoint (baseURL apiKey action : String) (params : EtherscanRequestParams) :
    String :=
  let url := baseURL ++ "?chainid=1&module=account&action=" ++ action
    ++ "&address=" ++ params.Address
  let url := if params.ContractAddress ≠ "" then
    url ++ "&contractaddress=" ++ params.ContractAddress else url
  let startBlock := if params.StartBlock < 0 then 0 else params.StartBlock
  let url := url ++ "&startblock=" ++ goIntString startBlock
  let endBlock := if params.EndBlock < 0 then 99999999 else params.EndBlock
  let url := url ++ "&endblock=" ++ goIntString endBlock
  let url := if params.Page > 0 then url ++ "&page=" ++ goIntString params.Page else url
  let url := if params.Offset > 0 then url ++ "&offset=" ++ goIntString params.Offset else url
  let sort := if params.«Sort» = "" then "asc" else params.«Sort»
  let url := url ++ "&sort=" ++ sort
  url ++ "&apikey=" ++ apiKey

def getNormalTransactionsEndpoint (baseURL apiKey : String)
    (params : EtherscanRequestParams) : String :=
  buildEndpoint baseURL apiKey "txlist" params

def getInternalTransactionsEndpoint (baseURL apiKey : String)
    (params : EtherscanRequestParams) : String :=
  buildEndpoint baseURL apiKey "txlistinternal" params

def getERC20TransfersEndpoint (baseURL apiKey : String)
    (params : EtherscanRequestParams) : String :=
  buildEndpoint baseURL apiKey "tokentx" params

def getERC721TransfersEndpoint (baseURL apiKey : String)
    (params : EtherscanRequestParams) : String :=
  buildEndpoint baseURL apiKey "tokennfttx" params

def getERC1155TransfersEndpoint (baseURL apiKey : String)
    (params : EtherscanRequestParams) : String :=
  buildEndpoint baseURL apiKey "token1155tx" params

/-- The request URL of `GetERC1155Transfers` in the address-based client
(`internal/etherscan/client.go`), verbatim from its `fmt.Sprintf`: note
the `action=tokentx` in a function documented as fetching ERC-1155
transfers. -/
def legacyGetERC1155TransfersEndpoint (baseURL address apiKey : String) : String :=
  baseURL ++ "?chainid=1&module=account&action=tokentx&address=" ++ address
    ++ "&startblock=0&endblock=99999999&sort=asc&apikey=" ++ apiKey

/-- The request URL of `GetERC20Transfers` in the address-based client:
the same `action=tokentx` query. -/
def legacyGetERC20TransfersEndpoint (baseURL address apiKey : String) : String :=
  baseURL ++ "?chainid=1&module=account&action=tokentx&address=" ++ address
    ++ "&startblock=0&endblock=99999999&sort=asc&apikey=" ++ apiKey

/-! ## JSON text codecs (`models.BigInt`, `models.Time`) -/

/-- `BigInt.UnmarshalText`: `big.Int.SetString(text, 10)`. -/
def bigIntUnmarshalText (text : String) : Option Int :=
  parseBigIntGo text

/-- `BigInt.MarshalText`: `b.Int().String()`. -/
def bigIntMarshalText (b : Int) : String :=
  goIntString b

/-- `strconv.ParseInt(s, 10, 64)`: same base-10 syntax as
`big.Int.SetString`, plus the int64 range check. -/
def goParseInt64 (s : String) : Option Int :=
  match parseBigIntGo s with
  | some z => if -(2 ^ 63) ≤ z ∧ z < 2 ^ 63 then some z else none
  | none => none

/-- Seconds between year 1 and the Unix epoch (`unixToInternal` in Go's
`time`). -/
def unixToInternal : Int := 62135596800

/-- Two's-complement int64 wraparound (Go integer addition overflows by
wrapping). -/
def wrap64 (x : Int) : Int :=
  (x + 9223372036854775808) % 18446744073709551616 - 9223372036854775808

/-- `time.Unix(sec, 0)`, reduced to the stored seconds-since-year-1
field (the only state `Time.Unix` reads back). -/
def timeUnix (sec : Int) : Int := wrap64 (sec + unixToInternal)

/-- `Time.Time().Unix()` of a stored time. -/
def timeUnixSeconds (t : Int) : Int := wrap64 (t - unixToInternal)

/-- `Time.UnmarshalText`: `strconv.ParseInt` then `time.Unix(input, 0)`. -/
def timeUnmarshalText (s : String) : Option Int :=
  (goParseInt64 s).map timeUnix

/-- `Time.MarshalText`: `strconv.FormatInt(t.Time().Unix(), 10)`. -/
def timeMarshalText (t : Int) : String :=
  goIntString (timeUnixSeconds t)

theorem wrap64_round_trip (n : Int) (h1 : -(2 ^ 63) ≤ n) (h2 : n < 2 ^ 63) :
    wrap64 (wrap64 (n + unixToInternal) - unixToInternal) = n := by
  unfold wrap64 unixToInternal
  omega

/-! ## Claims -/

/-- C1: for every aggregation output (outgoing/beneficiaries or
incoming/payers), a bucket's accumulated `Amount` is exactly the float64
running sum of the normalized amounts of its contributing native
(normal) and internal records; ERC20, ERC721 and ERC1155 records append
to the bucket's transaction history (the history length counts all five
categories) but contribute 0 to `Amount` (the total is independent of
them). -/
theorem c1_total_sums_native_internal_only (a : String) (c : TransactionCollection)
    (dir : Bool) (k : String) (e : EntityWithTransactions)
    (h : lookupEnt k (processTransactions a c dir) = some e) :
    e.Amount
      = ((contribNormal a dir c k).map (fun t => (mkNormalTransaction t).TxAmount)
          ++ (contribInternal a dir c k).map (fun t => (mkInternalTransaction t).TxAmount)).foldl
          fadd 0
    ∧ e.Transactions.length
        = (contribNormal a dir c k).length + (contribInternal a dir c k).length
          + (contribERC20 a dir c k).length + (contribERC721 a dir c k).length
          + (contribERC1155 a dir c k).length := by
  obtain ⟨-, htx, hamt⟩ := lookupEnt_processTransactions_eq_some a c dir k e h
  refine ⟨hamt, ?_⟩
  rw [htx]
  simp only [List.length_append, List.length_map]

def w1Normal : NormalTx :=
  { From := "0xAaA", To := "0xbbb", Value := "2000000000000000000",
    TimeStamp := 1700000000, Hash := "0xn1", IsError := 0 }

def w1ERC20 : ERC20Transfer :=
  { From := "0xaaa", To := "0xbbb", Value := "500",
    TimeStamp := 1700000100, Hash := "0xt1", TokenDecimal := 2 }

def w1Coll : TransactionCollection :=
  { NormalTxs := [w1Normal], InternalTxs := [], ERC20Txs := [w1ERC20],
    ERC721Txs := [], ERC1155Txs := [], Errors := [] }

def w1Ent : EntityWithTransactions :=
  { Address := "0xbbb", Amount := 2,
    Transactions :=
      [{ TxAmount := 2, DateTime := 1700000000, TransactionID := "0xn1" },
       { TxAmount := 5, DateTime := 1700000100, TransactionID := "0xt1" }] }

/-- C1 witness: a 2-ETH native transfer and a raw-500/2-decimals ERC20
transfer to the same counterparty yield a bucket with total 2 (the token
amount 5 is in the history only). -/
theorem c1_witness :
    lookupEnt "0xbbb" (processTransactions "0xaaa" w1Coll true) = some w1Ent
    ∧ (w1Ent.Amount
        = ((contribNormal "0xaaa" true w1Coll "0xbbb").map
              (fun t => (mkNormalTransaction t).TxAmount)
            ++ (contribInternal "0xaaa" true w1Coll "0xbbb").map
              (fun t => (mkInternalTransaction t).TxAmount)).foldl fadd 0
      ∧ w1Ent.Transactions.length
          = (contribNormal "0xaaa" true w1Coll "0xbbb").length
            + (contribInternal "0xaaa" true w1Coll "0xbbb").length
            + (contribERC20 "0xaaa" true w1Coll "0xbbb").length
            + (contribERC721 "0xaaa" true w1Coll "0xbbb").length
            + (contribERC1155 "0xaaa" true w1Coll "0xbbb").length) :=
  ⟨by decide, c1_total_sums_native_internal_only "0xaaa" w1Coll true "0xbbb" w1Ent (by decide)⟩

theorem fetchAllTransactions_fst (r : FetchOutcome) (order : List Category) :
    (fetchAllTransactions r order).1
      = { NormalTxs := okD r.normal
          InternalTxs := okD r.internal
          ERC20Txs := okD r.erc20
          ERC721Txs := okD r.erc721
          ERC1155Txs := okD r.erc1155
          Errors := errorsList r order } := by
  unfold fetchAllTransactions
  dsimp only
  split <;> rfl

theorem fetchAllTransactions_snd_of_err (r : FetchOutcome) (order : List Category)
    (h : errorsList r order ≠ []) :
    (fetchAllTransactions r order).2
      = some ("failed to fetch some transactions: ["
          ++ joinSpace (errorsList r order) ++ "]") := by
  unfold fetchAllTransactions
  dsimp only
  rw [if_neg h]

/-- C2: if any category fetch fails, `FetchAllTransactions` returns a
non-nil error whose message contains the failed category's name and the
wrapped underlying cause (for every failed category, whatever the
goroutine completion order), while the returned collection still holds
every successfully fetched category's record slice. -/
theorem c2_fetch_failure_names_category (r : FetchOutcome) (order : List Category)
    (horder : order.Perm allCategories) (c : Category) (cause : String)
    (hc : errOfCat r c = some cause) :
    (∃ msg, (fetchAllTransactions r order).2 = some msg
      ∧ strContains msg (categoryName c) ∧ strContains msg cause)
    ∧ (∀ l, r.normal = .ok l → (fetchAllTransactions r order).1.NormalTxs = l)
    ∧ (∀ l, r.internal = .ok l → (fetchAllTransactions r order).1.InternalTxs = l)
    ∧ (∀ l, r.erc20 = .ok l → (fetchAllTransactions r order).1.ERC20Txs = l)
    ∧ (∀ l, r.erc721 = .ok l → (fetchAllTransactions r order).1.ERC721Txs = l)
    ∧ (∀ l, r.erc1155 = .ok l → (fetchAllTransactions r order).1.ERC1155Txs = l) := by
  have hmem : c ∈ order := horder.mem_iff.2 (by cases c <;> simp [allCategories])
  have hwrap : wrapCat c cause ∈ errorsList r order :=
    List.mem_filterMap.2 ⟨c, hmem, by simp [hc]⟩
  have hne : errorsList r order ≠ [] := List.ne_nil_of_mem hwrap
  have hjoin : strContains (joinSpace (errorsList r order)) (wrapCat c cause) :=
    strContains_joinSpace _ _ hwrap
  have hmsg : strContains ("failed to fetch some transactions: ["
      ++ joinSpace (errorsList r order) ++ "]") (wrapCat c cause) :=
    strContains_of_append _ _ _ _ hjoin
  refine ⟨⟨_, fetchAllTransactions_snd_of_err r order hne,
      strContains_trans _ _ _ hmsg (wrapCat_starts_with_name c cause),
      strContains_trans _ _ _ hmsg (wrapCat_ends_with_cause c cause)⟩,
    ?_, ?_, ?_, ?_, ?_⟩ <;>
  · intro l hl
    rw [fetchAllTransactions_fst]
    show okD _ = l
    rw [hl]
    rfl

def w2Outcome : FetchOutcome :=
  { normal := .error "connection refused"
    internal := .ok []
    erc20 := .error "bad json"
    erc721 := .ok [⟨"0xaaa", "0xbbb", 0, "0xn7", 0⟩]
    erc1155 := .ok [] }

def w2Order : List Category :=
  [.erc20, .internal, .normal, .erc1155, .erc721]

/-- C2 witness: with the normal and ERC20 fetches failing in a scrambled
completion order, the aggregate error names the normal category and
wraps its cause, and the ERC721 slice is still populated. -/
theorem c2_witness :
    w2Order.Perm allCategories
    ∧ errOfCat w2Outcome .normal = some "connection refused"
    ∧ ((∃ msg, (fetchAllTransactions w2Outcome w2Order).2 = some msg
        ∧ strContains msg (categoryName .normal) ∧ strContains msg "connection refused")
      ∧ (∀ l, w2Outcome.normal = .ok l → (fetchAllTransactions w2Outcome w2Order).1.NormalTxs = l)
      ∧ (∀ l, w2Outcome.internal = .ok l → (fetchAllTransactions w2Outcome w2Order).1.InternalTxs = l)
      ∧ (∀ l, w2Outcome.erc20 = .ok l → (fetchAllTransactions w2Outcome w2Order).1.ERC20Txs = l)
      ∧ (∀ l, w2Outcome.erc721 = .ok l → (fetchAllTransactions w2Outcome w2Order).1.ERC721Txs = l)
      ∧ (∀ l, w2Outcome.erc1155 = .ok l → (fetchAllTransactions w2Outcome w2Order).1.ERC1155Txs = l)) :=
  ⟨by decide, by decide,
    c2_fetch_failure_names_category w2Outcome w2Order (by decide) .normal
      "connection refused" (by decide)⟩

def x3Tx : NormalTx :=
  { From := "0xaaa", To := "0xbbb", Value := "1000000000000000000",
    TimeStamp := 0, Hash := "0xh3", IsError := 2 }

def x3Coll : TransactionCollection :=
  { NormalTxs := [x3Tx], InternalTxs := [], ERC20Txs := [],
    ERC721Txs := [], ERC1155Txs := [], Errors := [] }

/-- C3 counterexample: the loops skip only records with error flag
exactly 1 (`tx.IsError == 1`), not every non-zero flag.  A normal record
with `IsError = 2` from the queried address is aggregated: its bucket
exists, its amount feeds the total and it appears in the history —
refuting the claim that every contributing native record has error flag
0 (non-zero flags skipped). -/
theorem c3_counterexample :
    lookupEnt "0xbbb" (processTransactions "0xaaa" x3Coll true)
      = some { Address := "0xbbb", Amount := 1,
               Transactions := [{ TxAmount := 1, DateTime := 0, TransactionID := "0xh3" }] }
    ∧ x3Tx.IsError ≠ 0
    ∧ ¬ (∀ (a : String) (c : TransactionCollection) (k : String)
          (e : EntityWithTransactions),
          lookupEnt k (processTransactions a c true) = some e →
          ∀ t ∈ contribNormal a true c k, t.IsError = 0) := by
  refine ⟨by decide, by decide, fun h => ?_⟩
  have := h "0xaaa" x3Coll "0xbbb"
    { Address := "0xbbb", Amount := 1,
      Transactions := [{ TxAmount := 1, DateTime := 0, TransactionID := "0xh3" }] }
    (by decide) x3Tx (by decide)
  exact absurd this (by decide)

/-- C3 (amended): every transaction in a bucket's history arises from a
record of one of the five categories whose direction-relevant endpoint
equals the queried address under case-insensitive comparison, whose
counterparty is the bucket key, and — for native and internal records —
whose error flag is not 1 (records with `IsError == 1` are skipped; a
flag of 2 would not be skipped, so "non-zero" in the original claim is
amended to "equal to 1"). -/
theorem c3_contributing_records_direction_and_error (a : String)
    (c : TransactionCollection) (dir : Bool) (k : String)
    (e : EntityWithTransactions)
    (h : lookupEnt k (processTransactions a c dir) = some e) :
    ∀ txn ∈ e.Transactions,
      (∃ t ∈ c.NormalTxs, txn = mkNormalTransaction t ∧ t.IsError ≠ 1
        ∧ (if dir then eqFold t.From a else eqFold t.To a) = true
        ∧ cpNormal dir t = k)
      ∨ (∃ t ∈ c.InternalTxs, txn = mkInternalTransaction t ∧ t.IsError ≠ 1
        ∧ (if dir then eqFold t.From a else eqFold t.To a) = true
        ∧ cpInternal dir t = k)
      ∨ (∃ t ∈ c.ERC20Txs, txn = mkERC20Transaction t
        ∧ (if dir then eqFold t.From a else eqFold t.To a) = true
        ∧ cpERC20 dir t = k)
      ∨ (∃ t ∈ c.ERC721Txs, txn = mkERC721Transaction t
        ∧ (if dir then eqFold t.From a else eqFold t.To a) = true
        ∧ cpERC721 dir t = k)
      ∨ (∃ t ∈ c.ERC1155Txs, txn = mkERC1155Transaction t
        ∧ (if dir then eqFold t.From a else eqFold t.To a) = true
        ∧ cpERC1155 dir t = k) := by
  obtain ⟨-, htx, -⟩ := lookupEnt_processTransactions_eq_some a c dir k e h
  intro txn htxn
  rw [htx] at htxn
  simp only [List.mem_append, List.mem_map] at htxn
  rcases htxn with ((((⟨t, ht, rfl⟩ | ⟨t, ht, rfl⟩) | ⟨t, ht, rfl⟩) | ⟨t, ht, rfl⟩) | ⟨t, ht, rfl⟩)
  · left
    rw [contribNormal, contrib, List.mem_filter] at ht
    obtain ⟨hmem, hcond⟩ := ht
    rw [Bool.and_eq_true, beq_iff_eq] at hcond
    obtain ⟨hkeep, hcp⟩ := hcond
    rw [keepNormal, Bool.and_eq_true, Bool.not_eq_eq_eq_not, Bool.not_true,
      decide_eq_false_iff_not] at hkeep
    exact ⟨t, hmem, rfl, hkeep.1, hkeep.2, hcp⟩
  · right; left
    rw [contribInternal, contrib, List.mem_filter] at ht
    obtain ⟨hmem, hcond⟩ := ht
    rw [Bool.and_eq_true, beq_iff_eq] at hcond
    obtain ⟨hkeep, hcp⟩ := hcond
    rw [keepInternal, Bool.and_eq_true, Bool.not_eq_eq_eq_not, Bool.not_true,
      decide_eq_false_iff_not] at hkeep
    exact ⟨t, hmem, rfl, hkeep.1, hkeep.2, hcp⟩
  · right; right; left
    rw [contribERC20, contrib, List.mem_filter] at ht
    obtain ⟨hmem, hcond⟩ := ht
    rw [Bool.and_eq_true, beq_iff_eq] at hcond
    exact ⟨t, hmem, rfl, hcond.1, hcond.2⟩
  · right; right; right; left
    rw [contribERC721, contrib, List.mem_filter] at ht
    obtain ⟨hmem, hcond⟩ := ht
    rw [Bool.and_eq_true, beq_iff_eq] at hcond
    exact ⟨t, hmem, rfl, hcond.1, hcond.2⟩
  · right; right; right; right
    rw [contribERC1155, contrib, List.mem_filter] at ht
    obtain ⟨hmem, hcond⟩ := ht
    rw [Bool.and_eq_true, beq_iff_eq] at hcond
    exact ⟨t, hmem, rfl, hcond.1, hcond.2⟩

/-- C3 witness: the amended theorem applied to the C1 scenario (one
native and one ERC20 outgoing record). -/
theorem c3_witness :
    lookupEnt "0xbbb" (processTransactions "0xaaa" w1Coll true) = some w1Ent
    ∧ ∀ txn ∈ w1Ent.Transactions,
      (∃ t ∈ w1Coll.NormalTxs, txn = mkNormalTransaction t ∧ t.IsError ≠ 1
        ∧ (if true then eqFold t.From "0xaaa" else eqFold t.To "0xaaa") = true
        ∧ cpNormal true t = "0xbbb")
      ∨ (∃ t ∈ w1Coll.InternalTxs, txn = mkInternalTransaction t ∧ t.IsError ≠ 1
        ∧ (if true then eqFold t.From "0xaaa" else eqFold t.To "0xaaa") = true
        ∧ cpInternal true t = "0xbbb")
      ∨ (∃ t ∈ w1Coll.ERC20Txs, txn = mkERC20Transaction t
        ∧ (if true then eqFold t.From "0xaaa" else eqFold t.To "0xaaa") = true
        ∧ cpERC20 true t = "0xbbb")
      ∨ (∃ t ∈ w1Coll.ERC721Txs, txn = mkERC721Transaction t
        ∧ (if true then eqFold t.From "0xaaa" else eqFold t.To "0xaaa") = true
        ∧ cpERC721 true t = "0xbbb")
      ∨ (∃ t ∈ w1Coll.ERC1155Txs, txn = mkERC1155Transaction t
        ∧ (if true then eqFold t.From "0xaaa" else eqFold t.To "0xaaa") = true
        ∧ cpERC1155 true t = "0xbbb") :=
  ⟨by decide,
    c3_contributing_records_direction_and_error "0xaaa" w1Coll true "0xbbb" w1Ent (by decide)⟩

def x4TxUpper : NormalTx :=
  { From := "0xaaa", To := "0xBb", Value := "1000000000000000000",
    TimeStamp := 0, Hash := "0xh4a", IsError := 0 }

def x4TxLower : NormalTx :=
  { From := "0xaaa", To := "0xbB", Value := "2000000000000000000",
    TimeStamp := 0, Hash := "0xh4b", IsError := 0 }

def x4Coll : TransactionCollection :=
  { NormalTxs := [x4TxUpper, x4TxLower], InternalTxs := [], ERC20Txs := [],
    ERC721Txs := [], ERC1155Txs := [], Errors := [] }

/-- C4 counterexample: the aggregation map is keyed by the exact
counterparty string (`beneficiaryMap[tx.To]` / `entityMap[counterpartyAddress]`),
not case-insensitively.  Two records to `0xBb` and `0xbB` (equal under
case folding) produce two distinct buckets with separate totals, so the
output contains two entries whose addresses are case-insensitively
equal — refuting the claim that such records share one bucket. -/
theorem c4_counterexample :
    lookupEnt "0xBb" (processTransactions "0xaaa" x4Coll true)
      = some { Address := "0xBb", Amount := 1,
               Transactions := [{ TxAmount := 1, DateTime := 0, TransactionID := "0xh4a" }] }
    ∧ lookupEnt "0xbB" (processTransactions "0xaaa" x4Coll true)
      = some { Address := "0xbB", Amount := 2,
               Transactions := [{ TxAmount := 2, DateTime := 0, TransactionID := "0xh4b" }] }
    ∧ eqFold "0xBb" "0xbB" = true
    ∧ "0xBb" ≠ "0xbB"
    ∧ ¬ (∀ (a : String) (c : TransactionCollection) (dir : Bool) (k1 k2 : String)
          (e1 e2 : EntityWithTransactions),
          lookupEnt k1 (processTransactions a c dir) = some e1 →
          lookupEnt k2 (processTransactions a c dir) = some e2 →
          eqFold k1 k2 = true → k1 = k2) := by
  refine ⟨by decide, by decide, by decide, by decide, fun h => ?_⟩
  have := h "0xaaa" x4Coll true "0xBb" "0xbB"
    { Address := "0xBb", Amount := 1,
      Transactions := [{ TxAmount := 1, DateTime := 0, TransactionID := "0xh4a" }] }
    { Address := "0xbB", Amount := 2,
      Transactions := [{ TxAmount := 2, DateTime := 0, TransactionID := "0xh4b" }] }
    (by decide) (by decide) (by decide)
  exact absurd this (by decide)

/-- C4 (amended): the aggregation map is keyed by the exact (byte-equal)
counterparty string: all records whose counterparty string is exactly
`k` accumulate into the single bucket stored under `k` (its address is
`k` and its history holds exactly those records); only the comparison
against the queried address is case-insensitive.  Counterparty strings
that differ only in letter case form distinct buckets
(`c4_counterexample`). -/
theorem c4_exact_key_single_bucket (a : String) (c : TransactionCollection)
    (dir : Bool) (k : String)
    (hne : ¬ (contribNormal a dir c k = [] ∧ contribInternal a dir c k = []
      ∧ contribERC20 a dir c k = [] ∧ contribERC721 a dir c k = []
      ∧ contribERC1155 a dir c k = [])) :
    ∃ e, lookupEnt k (processTransactions a c dir) = some e
      ∧ e.Address = k
      ∧ e.Transactions.length
          = (contribNormal a dir c k).length + (contribInternal a dir c k).length
            + (contribERC20 a dir c k).length + (contribERC721 a dir c k).length
            + (contribERC1155 a dir c k).length := by
  have hsome : lookupEnt k (processTransactions a c dir) ≠ none := by
    rw [Ne, lookupEnt_processTransactions_eq_none]
    exact hne
  rcases hlook : lookupEnt k (processTransactions a c dir) with _ | e
  · exact absurd hlook hsome
  · obtain ⟨haddr, htx, -⟩ := lookupEnt_processTransactions_eq_some a c dir k e hlook
    refine ⟨e, rfl, haddr, ?_⟩
    rw [htx]
    simp only [List.length_append, List.length_map]

/-- C4 witness: in the case-variant scenario the bucket under the exact
key `0xBb` exists with exactly its one record. -/
theorem c4_witness :
    (¬ (contribNormal "0xaaa" true x4Coll "0xBb" = []
      ∧ contribInternal "0xaaa" true x4Coll "0xBb" = []
      ∧ contribERC20 "0xaaa" true x4Coll "0xBb" = []
      ∧ contribERC721 "0xaaa" true x4Coll "0xBb" = []
      ∧ contribERC1155 "0xaaa" true x4Coll "0xBb" = []))
    ∧ ∃ e, lookupEnt "0xBb" (processTransactions "0xaaa" x4Coll true) = some e
      ∧ e.Address = "0xBb"
      ∧ e.Transactions.length
          = (contribNormal "0xaaa" true x4Coll "0xBb").length
            + (contribInternal "0xaaa" true x4Coll "0xBb").length
            + (contribERC20 "0xaaa" true x4Coll "0xBb").length
            + (contribERC721 "0xaaa" true x4Coll "0xBb").length
            + (contribERC1155 "0xaaa" true x4Coll "0xBb").length :=
  ⟨by decide, c4_exact_key_single_bucket "0xaaa" x4Coll true "0xBb" (by decide)⟩

theorem keepBen_eq_true_iff (p : FilterAndSortParams) (b : EntityWithTransactions) :
    keepBen p b = true
      ↔ ¬ (b.Amount = 0 ∧ ¬ p.WithZeroTxs) ∧ ¬ (b.Amount < p.MinAmount)
        ∧ ¬ (0 < p.MaxAmount ∧ p.MaxAmount < b.Amount) := by
  unfold keepBen
  split_ifs <;> simp_all

def x5Params : FilterAndSortParams :=
  { Address := "0xaaa", StartBlock := 0, EndBlock := -1, Page := 1, Offset := 100,
    «Sort» := "desc", MinAmount := 0, MaxAmount := 0, SortBy := "amount",
    Limit := 100, WithZeroTxs := true }

def x5Ben : EntityWithTransactions :=
  { Address := "0xbbb", Amount := 5, Transactions := [] }

/-- C5 counterexample: the maximum-amount filter is guarded by
`params.MaxAmount > 0`, not "non-negative".  With `MaxAmount = 0` an
entry of total 5 survives the whole pipeline, refuting the claimed drop
of entries exceeding a non-negative (here zero) maximum. -/
theorem c5_counterexample :
    filterLoop x5Params [x5Ben] = [x5Ben]
    ∧ (0 : Rat) ≤ x5Params.MaxAmount
    ∧ x5Params.MaxAmount < x5Ben.Amount
    ∧ filterBeneficiariesRel x5Params [x5Ben] [x5Ben]
    ∧ ¬ (∀ (p : FilterAndSortParams) (inp out : List EntityWithTransactions),
          filterBeneficiariesRel p inp out →
          ∀ b ∈ out, 0 ≤ p.MaxAmount → b.Amount ≤ p.MaxAmount) := by
  have hrel : filterBeneficiariesRel x5Params [x5Ben] [x5Ben] := by
    refine ⟨[x5Ben], ?_, by decide⟩
    rw [if_pos (by decide : x5Params.SortBy = "amount")]
    exact (by decide : applySortingRel x5Params.«Sort» (filterLoop x5Params [x5Ben]) [x5Ben])
  refine ⟨by decide, by decide, by decide, hrel, fun h => ?_⟩
  have := h x5Params [x5Ben] [x5Ben] hrel x5Ben (by decide) (by decide)
  exact absurd this (by decide)

/-- C5 (amended): the pipeline filters, sorts and truncates in that
order, where the maximum-amount step drops entries only when
`MaxAmount` is strictly positive: for a positive limit, the output
never exceeds the limit, and every surviving entry comes from the
input, is nonzero when zero-inclusion is off, is at least `MinAmount`,
and is at most `MaxAmount` whenever `MaxAmount > 0` (a zero or negative
`MaxAmount` imposes no upper bound). -/
theorem c5_filter_sort_limit_pipeline (p : FilterAndSortParams)
    (inp out : List EntityWithTransactions) (hlim : 0 < p.Limit)
    (h : filterBeneficiariesRel p inp out) :
    (out.length : Int) ≤ p.Limit
    ∧ ∀ b ∈ out, b ∈ inp
        ∧ (p.WithZeroTxs = false → ¬ b.Amount = 0)
        ∧ p.MinAmount ≤ b.Amount
        ∧ (0 < p.MaxAmount → b.Amount ≤ p.MaxAmount) := by
  rcases h with ⟨mid, hmid, hout⟩
  have hmem_mid : ∀ b ∈ mid, b ∈ filterLoop p inp := by
    intro b hb
    by_cases hs : p.SortBy = "amount"
    · rw [if_pos hs] at hmid
      unfold applySortingRel at hmid
      split at hmid <;> exact hmid.1.mem_iff.2 hb
    · rw [if_neg hs] at hmid
      rw [hmid] at hb
      exact hb
  have hout_sub : ∀ b ∈ out, b ∈ mid := by
    intro b hb
    rw [hout] at hb
    unfold goTruncate at hb
    split at hb
    · exact List.mem_of_mem_take hb
    · exact hb
  constructor
  · rw [hout]
    unfold goTruncate
    split
    · next hgt =>
      rw [List.length_take]
      omega
    · next hgt =>
      omega
  · intro b hb
    have hfb : b ∈ filterLoop p inp := hmem_mid b (hout_sub b hb)
    rw [filterLoop, List.mem_filter] at hfb
    obtain ⟨hin, hkeep⟩ := hfb
    rw [keepBen_eq_true_iff] at hkeep
    obtain ⟨h1, h2, h3⟩ := hkeep
    refine ⟨hin, ?_, not_lt.1 h2, ?_⟩
    · intro hw hz
      exact h1 ⟨hz, by rw [hw]; exact Bool.false_ne_true⟩
    · intro hmax
      by_contra hgt
      exact h3 ⟨hmax, not_le.1 hgt⟩

/-- C5 witness: the amended theorem at the `MaxAmount = 0` scenario. -/
theorem c5_witness :
    (0 : Int) < x5Params.Limit
    ∧ ((([x5Ben] : List EntityWithTransactions).length : Int) ≤ x5Params.Limit
      ∧ ∀ b ∈ ([x5Ben] : List EntityWithTransactions), b ∈ ([x5Ben] : List EntityWithTransactions)
          ∧ (x5Params.WithZeroTxs = false → ¬ b.Amount = 0)
          ∧ x5Params.MinAmount ≤ b.Amount
          ∧ (0 < x5Params.MaxAmount → b.Amount ≤ x5Params.MaxAmount)) :=
  ⟨by decide,
    c5_filter_sort_limit_pipeline x5Params [x5Ben] [x5Ben] (by decide)
      (by
        refine ⟨[x5Ben], ?_, by decide⟩
        rw [if_pos (by decide : x5Params.SortBy = "amount")]
        exact (by decide :
          applySortingRel x5Params.«Sort» (filterLoop x5Params [x5Ben]) [x5Ben]))⟩

def x6A : EntityWithTransactions := { Address := "0xa", Amount := 5, Transactions := [] }

def x6B : EntityWithTransactions := { Address := "0xb", Amount := 1, Transactions := [] }

def x6C : EntityWithTransactions := { Address := "0xc", Amount := 5, Transactions := [] }

/-- C6 counterexample: the sort stage is Go `sort.Slice`, whose contract
is only "some permutation sorted by the less function" and which is
documented as not stable.  On the tied input `[A(5), C(5)]` descending,
the reversed output `[C, A]` satisfies the sort contract while breaking
the input's relative order of equal-amount entries — refuting the claim
that every output preserves tie order (stability). -/
theorem c6_counterexample :
    applySortingRel "desc" [x6A, x6C] [x6C, x6A]
    ∧ ([x6C, x6A].filter (fun b => b.Amount == 5)
        ≠ [x6A, x6C].filter (fun b => b.Amount == 5))
    ∧ ¬ (∀ (o : String) (inp out : List EntityWithTransactions),
          applySortingRel o inp out →
          ∀ q : Rat, out.filter (fun b => b.Amount == q)
            = inp.filter (fun b => b.Amount == q)) := by
  refine ⟨by decide, by decide, fun h => ?_⟩
  have := h "desc" [x6A, x6C] [x6C, x6A] (by decide) 5
  exact absurd this (by decide)

/-- C6 (amended): the sort stage guarantees only a permutation of its
input that is sorted by total amount in the requested direction; entries
with equal totals may appear in either relative order.  On the spec's
example `[A(5), B(1), C(5)]` sorted descending, every output the
contract admits is `[A, C, B]` or `[C, A, B]`. -/
theorem c6_sorted_permutation_two_outcomes (out : List EntityWithTransactions)
    (h : applySortingRel "desc" [x6A, x6B, x6C] out) :
    out = [x6A, x6C, x6B] ∨ out = [x6C, x6A, x6B] := by
  unfold applySortingRel at h
  rw [if_neg (by decide : ¬ ("desc" : String) = "asc")] at h
  obtain ⟨hperm, hpair⟩ := h
  have hlen : out.length = 3 := by
    have := hperm.length_eq
    simpa using this.symm
  rcases out with _ | ⟨x, out⟩
  · simp at hlen
  rcases out with _ | ⟨y, out⟩
  · simp at hlen
  rcases out with _ | ⟨z, out⟩
  · simp at hlen
  rcases out with _ | ⟨w, out⟩
  · have hx : x ∈ [x6A, x6B, x6C] := hperm.mem_iff.2 (by simp)
    have hy : y ∈ [x6A, x6B, x6C] := hperm.mem_iff.2 (by simp)
    have hz : z ∈ [x6A, x6B, x6C] := hperm.mem_iff.2 (by simp)
    simp only [List.mem_cons, List.not_mem_nil, or_false] at hx hy hz
    rcases hx with rfl | rfl | rfl <;> rcases hy with rfl | rfl | rfl <;>
      rcases hz with rfl | rfl | rfl <;>
      revert hperm hpair <;> decide
  · simp at hlen

/-- C6 witness: the stable outcome `[A, C, B]` satisfies the sort
contract, and the amended theorem applies to it. -/
theorem c6_witness :
    applySortingRel "desc" [x6A, x6B, x6C] [x6A, x6C, x6B]
    ∧ ([x6A, x6C, x6B] = [x6A, x6C, x6B] ∨ [x6A, x6C, x6B] = [x6C, x6A, x6B]) :=
  ⟨by decide, c6_sorted_permutation_two_outcomes [x6A, x6C, x6B] (by decide)⟩

def x7Tx : NormalTx :=
  { From := "0xaaa", To := "0xbbb", Value := "abc",
    TimeStamp := 0, Hash := "0xh7", IsError := 0 }

def x7Coll : TransactionCollection :=
  { NormalTxs := [x7Tx], InternalTxs := [], ERC20Txs := [],
    ERC721Txs := [], ERC1155Txs := [], Errors := [] }

/-- C7 counterexample: an unparsable raw amount string raises no error
and is not skipped.  `ConvertWeiToEther` ignores the `SetString`
failure (the receiver stays at its zero value) and returns 0, and the
aggregation still creates the bucket and appends the record to its
history with amount 0 — refuting the claim that such a record is
skipped entirely (contributing to neither the total nor the history,
under a `MalformedAmount` error that does not exist in the code). -/
theorem c7_counterexample :
    parseBigIntGo x7Tx.Value = none
    ∧ convertWeiToEther x7Tx.Value = 0
    ∧ lookupEnt "0xbbb" (processTransactions "0xaaa" x7Coll true)
        = some { Address := "0xbbb", Amount := 0,
                 Transactions := [{ TxAmount := 0, DateTime := 0, TransactionID := "0xh7" }] }
    ∧ ¬ lookupEnt "0xbbb" (processTransactions "0xaaa" x7Coll true) = none := by
  exact ⟨by decide, by decide, by decide, by decide⟩

/-- C7 (amended): a record whose raw amount string fails to parse is
processed without any error: the conversion yields 0 and the record is
appended to its counterparty's history with amount 0, contributing 0 to
the running total (for a fresh bucket the total is `fadd 0 0 = 0`). -/
theorem c7_invalid_amount_kept_as_zero (a : String) (t : NormalTx)
    (hp : parseBigIntGo t.Value = none) (he : ¬ t.IsError = 1)
    (hd : eqFold t.From a = true) :
    convertWeiToEther t.Value = 0
    ∧ (mkNormalTransaction t).TxAmount = 0
    ∧ lookupEnt t.To (processTransactions a
        { NormalTxs := [t], InternalTxs := [], ERC20Txs := [],
          ERC721Txs := [], ERC1155Txs := [], Errors := [] } true)
        = some { Address := t.To, Amount := 0,
                 Transactions := [mkNormalTransaction t] } := by
  have hconv : convertWeiToEther t.Value = 0 := by
    rw [convertWeiToEther, hp]
  have hamt : (mkNormalTransaction t).TxAmount = 0 := hconv
  refine ⟨hconv, hamt, ?_⟩
  rw [lookupEnt_processTransactions]
  have hcN : contribNormal a true
      { NormalTxs := [t], InternalTxs := [], ERC20Txs := [],
        ERC721Txs := [], ERC1155Txs := [], Errors := [] } t.To = [t] := by
    rw [contribNormal, contrib]
    show List.filter _ [t] = [t]
    rw [List.filter_cons]
    have hkeep : keepNormal a true t = true := by
      rw [keepNormal]
      simp [he, hd]
    have : cpNormal true t == t.To := by
      rw [cpNormal]
      simp
    simp [hkeep, this]
  rw [hcN]
  show applyContrib _ false t.To (applyContrib _ false t.To (applyContrib _ false t.To
    (applyContrib _ true t.To (applyContrib _ true t.To none [t]) _) _) _) _ = _
  have h1 : applyContrib mkNormalTransaction true t.To none [t]
      = some (stepEnt mkNormalTransaction true (newEnt t.To) t) := rfl
  rw [h1]
  have hcI : contribInternal a true
      { NormalTxs := [t], InternalTxs := [], ERC20Txs := [],
        ERC721Txs := [], ERC1155Txs := [], Errors := [] } t.To = [] := rfl
  have hc20 : contribERC20 a true
      { NormalTxs := [t], InternalTxs := [], ERC20Txs := [],
        ERC721Txs := [], ERC1155Txs := [], Errors := [] } t.To = [] := rfl
  have hc721 : contribERC721 a true
      { NormalTxs := [t], InternalTxs := [], ERC20Txs := [],
        ERC721Txs := [], ERC1155Txs := [], Errors := [] } t.To = [] := rfl
  have hc1155 : contribERC1155 a true
      { NormalTxs := [t], InternalTxs := [], ERC20Txs := [],
        ERC721Txs := [], ERC1155Txs := [], Errors := [] } t.To = [] := rfl
  rw [hcI, hc20, hc721, hc1155, applyContrib_nil, applyContrib_nil, applyContrib_nil,
    applyContrib_nil]
  show some _ = some _
  congr 1
  rw [stepEnt]
  have : fadd (newEnt t.To).Amount (mkNormalTransaction t).TxAmount = 0 := by
    rw [hamt]
    show fadd 0 0 = 0
    rw [fadd]
    show float64Round (0 + 0) = 0
    norm_num [float64Round]
  rw [newEnt] at this ⊢
  simp [this]

def x7wTx : NormalTx :=
  { From := "0xAAA", To := "0xccc", Value := "<nil>",
    TimeStamp := 7, Hash := "0xh7w", IsError := 0 }

/-- C7 witness: a record whose `Value` text is the `<nil>` rendering of
a missing big.Int still lands in the history with amount 0. -/
theorem c7_witness :
    (parseBigIntGo x7wTx.Value = none ∧ ¬ x7wTx.IsError = 1
      ∧ eqFold x7wTx.From "0xaaa" = true)
    ∧ (convertWeiToEther x7wTx.Value = 0
      ∧ (mkNormalTransaction x7wTx).TxAmount = 0
      ∧ lookupEnt x7wTx.To (processTransactions "0xaaa"
          { NormalTxs := [x7wTx], InternalTxs := [], ERC20Txs := [],
            ERC721Txs := [], ERC1155Txs := [], Errors := [] } true)
          = some { Address := x7wTx.To, Amount := 0,
                   Transactions := [mkNormalTransaction x7wTx] }) :=
  ⟨⟨by decide, by decide, by decide⟩,
    c7_invalid_amount_kept_as_zero "0xaaa" x7wTx (by decide) (by decide) (by decide)⟩

/-- C8 counterexample: the token divisor is the float64
`math.Pow10(tokenDecimal)`, which for 23 decimals is
`99999999999999991611392`, not `10^23`.  On the raw value string equal
to that divisor the code returns exactly 1.0, while the exact rational
`bigint(s)/10^23` rounded to float64 is `(2^53 - 1)/2^53 ≠ 1` — so the
function does not compute the exact rational value rounded to float64
for every exponent occurring in the system. -/
theorem c8_counterexample :
    convertTokenValueWithDecimals "99999999999999991611392" 23 = 1
    ∧ float64Round ((99999999999999991611392 : Rat) / 10 ^ 23) = (2 ^ 53 - 1) / 2 ^ 53
    ∧ ((2 ^ 53 - 1) / 2 ^ 53 : Rat) ≠ 1
    ∧ parseBigIntGo "99999999999999991611392" = some 99999999999999991611392
    ∧ goPow10 23 ≠ 10 ^ 23
    ∧ ¬ (∀ (s : String) (e : Nat) (z : Int), parseBigIntGo s = some z →
          convertTokenValueWithDecimals s e = float64Round ((z : Rat) / 10 ^ e)) := by
  refine ⟨by decide, by decide, by decide, by decide, by decide, fun h => ?_⟩
  have h1 := h "99999999999999991611392" 23 99999999999999991611392 (by decide)
  rw [(by decide : convertTokenValueWithDecimals "99999999999999991611392" 23 = 1)] at h1
  rw [(by decide : float64Round (((99999999999999991611392 : Int) : Rat) / 10 ^ 23)
    = (2 ^ 53 - 1) / 2 ^ 53)] at h1
  exact absurd h1.symm (by decide)

theorem goPow10_exact_le_22 (e : Nat) (he : e ≤ 22) : goPow10 e = 10 ^ e := by
  have hall : (List.range 23).all (fun k => goPow10 k == 10 ^ k) = true := by decide
  rw [List.all_eq_true] at hall
  have := hall e (List.mem_range.2 (by omega))
  exact of_decide_eq_true this

/-- C8 (amended): the normalization parses the full integer string with
arbitrary precision, but divides by the float64 `math.Pow10(e)` (and,
for token values, first rounds the parsed value to a 64-bit-significand
`big.Float`), so the result is the exact rational rounded to float64
only insofar as the divisor is exact: the divisor equals `10^e` for
every `e ≤ 22` (which covers the fixed wei exponent 18), while from
`e = 23` on it differs and the result can deviate from the correctly
rounded exact rational (`c8_counterexample`); `normalize("0", e) = 0`
holds for every exponent. -/
theorem c8_zero_and_divisor_exactness :
    (∀ e : Nat, convertTokenValueWithDecimals "0" e = 0)
    ∧ convertWeiToEther "0" = 0
    ∧ (∀ e : Nat, e ≤ 22 → goPow10 e = 10 ^ e) := by
  refine ⟨?_, by decide, goPow10_exact_le_22⟩
  intro e
  rw [convertTokenValueWithDecimals]
  rw [(by decide : parseBigIntGo "0" = some 0)]
  show float64Round (roundBF 64 (roundBF 64 ((0 : Int) : Rat) / goPow10 e)) = 0
  rw [(by norm_num : ((0 : Int) : Rat) = 0)]
  rw [(by rw [roundBF]; norm_num : roundBF 64 (0 : Rat) = 0), zero_div,
    (by rw [roundBF]; norm_num : roundBF 64 (0 : Rat) = 0),
    (by rw [float64Round]; norm_num : float64Round (0 : Rat) = 0)]

/-- C8 witness: the zero law at an arbitrary token exponent and the
divisor exactness at the wei exponent 18. -/
theorem c8_witness :
    convertTokenValueWithDecimals "0" 7 = 0
    ∧ convertWeiToEther "0" = 0
    ∧ (18 ≤ 22 ∧ goPow10 18 = 10 ^ 18) :=
  ⟨c8_zero_and_divisor_exactness.1 7, c8_zero_and_divisor_exactness.2.1,
    by norm_num, c8_zero_and_divisor_exactness.2.2 18 (by norm_num)⟩

def x9Params : EtherscanRequestParams :=
  { Address := "0xabc", ContractAddress := "", Page := 1, Offset := 100,
    StartBlock := 0, EndBlock := -1, «Sort» := "asc" }

/-- C9: the params-based client's ERC-1155 fetch queries the dedicated
`action=token1155tx` (distinct from the ERC-20 `tokentx`), as the claim
states; but the address-based client's `GetERC1155Transfers` — despite
its doc comment saying it fetches ERC-1155 transfers — builds a URL with
`action=tokentx`, identical to its ERC-20 query, and never mentions
`token1155tx`. -/
theorem c9_erc1155_action_param :
    strContains (getERC1155TransfersEndpoint "https://api.etherscan.io/v2/api" "KEY" x9Params)
      "action=token1155tx"
    ∧ strContains (getERC20TransfersEndpoint "https://api.etherscan.io/v2/api" "KEY" x9Params)
      "action=tokentx"
    ∧ ¬ strContains (getERC20TransfersEndpoint "https://api.etherscan.io/v2/api" "KEY" x9Params)
      "action=token1155tx"
    ∧ strContains (legacyGetERC1155TransfersEndpoint "https://api.etherscan.io/v2/api" "0xabc" "KEY")
      "action=tokentx"
    ∧ ¬ strContains (legacyGetERC1155TransfersEndpoint "https://api.etherscan.io/v2/api" "0xabc" "KEY")
      "action=token1155tx"
    ∧ legacyGetERC1155TransfersEndpoint "https://api.etherscan.io/v2/api" "0xabc" "KEY"
        = legacyGetERC20TransfersEndpoint "https://api.etherscan.io/v2/api" "0xabc" "KEY" := by
  refine ⟨?_, ?_, by decide, by decide, by decide, by decide⟩
  · exact ⟨"https://api.etherscan.io/v2/api?chainid=1&module=account&".data,
      "&address=0xabc&startblock=0&endblock=99999999&page=1&offset=100&sort=asc&apikey=KEY".data,
      by decide⟩
  · exact ⟨"https://api.etherscan.io/v2/api?chainid=1&module=account&".data,
      "&address=0xabc&startblock=0&endblock=99999999&page=1&offset=100&sort=asc&apikey=KEY".data,
      by decide⟩

/-- C10: the `BigInt` and `Time` text codecs round-trip — unmarshalling
the canonical decimal representation of any integer and re-marshalling
returns the same string, and likewise for any int64 Unix-seconds value
through `time.Unix` and `Time.Unix()` (whose int64 offset arithmetic
wraps and unwraps losslessly). -/
theorem c10_text_codecs_round_trip :
    (∀ n : Int, (bigIntUnmarshalText (goIntString n)).map bigIntMarshalText
      = some (goIntString n))
    ∧ (∀ v : Int, -(2 ^ 63) ≤ v → v < 2 ^ 63 →
      (timeUnmarshalText (goIntString v)).map timeMarshalText = some (goIntString v)) := by
  constructor
  · intro n
    rw [bigIntUnmarshalText, parseBigIntGo_goIntString]
    rfl
  · intro v h1 h2
    rw [timeUnmarshalText, goParseInt64, parseBigIntGo_goIntString]
    show Option.map timeMarshalText (Option.map timeUnix
      (if -(2 : Int) ^ 63 ≤ v ∧ v < 2 ^ 63 then some v else none)) = some (goIntString v)
    rw [if_pos (⟨h1, h2⟩ : -(2 : Int) ^ 63 ≤ v ∧ v < 2 ^ 63)]
    show some (timeMarshalText (timeUnix v)) = some (goIntString v)
    rw [timeMarshalText, timeUnix, timeUnixSeconds, wrap64_round_trip v h1 h2]

/-- C10 witness: both codecs round-trip on a concrete negative integer
and a concrete Unix timestamp. -/
theorem c10_witness :
    (bigIntUnmarshalText (goIntString (-12345))).map bigIntMarshalText
      = some (goIntString (-12345))
    ∧ (-(2 ^ 63) ≤ (1700000000 : Int) ∧ (1700000000 : Int) < 2 ^ 63)
    ∧ (timeUnmarshalText (goIntString 1700000000)).map timeMarshalText
      = some (goIntString 1700000000) :=
  ⟨c10_text_codecs_round_trip.1 (-12345), ⟨by norm_num, by norm_num⟩,
    c10_text_codecs_round_trip.2 1700000000 (by norm_num) (by norm_num)⟩

end EthFlow
